import Mathlib

set_option linter.unusedSectionVars false

/-!
# Verification of the `channels` repository

Shallow embedding of the channel implementation in `src/src/channels.c`
(the canonical core) together with the flags transition of the historical
variant `src/channels.c`, and proofs of the specified properties.

Modelling conventions:
* The item payload is abstracted as a type `α` (the C code copies
  `item_size` opaque bytes per item); `item_size` is kept as a field.
* The backing buffer (`void *queue`) is modelled as a total function
  `Nat → α`; only indices `< capacity` are ever accessed.  Memory that is
  zeroed by `calloc` and memory left uninitialised by `malloc` are both
  modelled by the `default` element.
* The operations run sequentially under the channel mutex; a
  `pthread_cond_wait` that would block forever in a single-threaded
  execution is modelled by a distinct `blocked` result carrying no
  successor state.
* `malloc` success/failure is an explicit boolean parameter of the
  operations that allocate.
-/

/-- `#define CH_CLOSED 1 << 0` -/
def CH_CLOSED : Nat := 1 <<< 0

/-- `#define CH_BOUNDED 1 << 1` -/
def CH_BOUNDED : Nat := 1 <<< 1

/-- The `channel_t` struct of `src/src/channels.c` (synchronisation
primitives `mu`, `send_cond`, `recv_cond` are not state in the sequential
model). -/
structure Channel (α : Type) where
  item_size : Nat
  count : Nat
  capacity : Nat
  recv_ptr : Nat
  send_ptr : Nat
  flags : Nat
  queue : Nat → α

variable {α : Type} [Inhabited α]

/-- Result of `channel_create`: either a pointer to a fresh channel, a
`NULL` return (the `if (!ch->queue) { free(ch); return NULL; }` path), or
the undefined behaviour of dereferencing the unchecked `malloc` result. -/
inductive CreateResult (α : Type) where
  | ok (ch : Channel α)
  | nullHandle
  | nullDeref

/-- `channel_create` of `src/src/channels.c` (lines 50-76).
`structAllocOk` is whether `malloc(sizeof(channel_t))` succeeds,
`bufAllocOk` whether `calloc(ch->capacity, item_size)` succeeds.  The
struct `malloc` result is *not* checked before the field writes
`ch->item_size = ...`, so its failure is a NULL dereference. -/
def channel_create (structAllocOk bufAllocOk : Bool) (item_size capacity : Nat) :
    CreateResult α :=
  if structAllocOk = false then
    CreateResult.nullDeref
  else
    let flags := if capacity > 0 then CH_BOUNDED else 0
    let cap := if capacity = 0 then 1 <<< 4 else capacity
    if bufAllocOk = false then
      CreateResult.nullHandle
    else
      CreateResult.ok
        { item_size := item_size
          count := 0
          capacity := cap
          recv_ptr := 0
          send_ptr := 0
          flags := flags
          queue := fun _ => default }

/-- Result of `channel_send`: success, failed because the channel is
closed, failed because `malloc` failed during growth, or blocked forever
on `send_cond` (bounded channel full, nobody to wake us). The failure
results carry the (unchanged) channel state. -/
inductive SendResult (α : Type) where
  | ok (ch : Channel α)
  | closed (ch : Channel α)
  | allocFail (ch : Channel α)
  | blocked

/-- The growth step of `channel_send` (lines 96-126 of
`src/src/channels.c`), taken after `malloc` of the doubled buffer
succeeded: copy the live window to offset 0 of the new buffer (one
`memcpy` when `recv_ptr < send_ptr`, two otherwise), free the old buffer
and reset the cursors. -/
def grow (ch : Channel α) : Channel α :=
  let new_cap := ch.capacity * 2
  let new_queue : Nat → α :=
    if ch.recv_ptr < ch.send_ptr then
      -- memcpy(new_queue, queue + recv_ptr*item_size, count*item_size)
      fun i => if i < ch.count then ch.queue (ch.recv_ptr + i) else default
    else
      -- two segments: [recv_ptr, capacity) then [0, send_ptr)
      let start_items := ch.capacity - ch.recv_ptr
      fun i =>
        if i < start_items then ch.queue (ch.recv_ptr + i)
        else if i < start_items + ch.send_ptr then ch.queue (i - start_items)
        else default
  { ch with
      queue := new_queue
      capacity := new_cap
      recv_ptr := 0
      send_ptr := ch.count }

/-- The enqueue step shared by every successful `channel_send` (lines
129-135): `memcpy` the value into the slot at `send_ptr`, increment
`count`, advance `send_ptr` modulo `capacity`. -/
def enqueue (ch : Channel α) (v : α) : Channel α :=
  { ch with
      queue := fun i => if i = ch.send_ptr then v else ch.queue i
      count := ch.count + 1
      send_ptr := (ch.send_ptr + 1) % ch.capacity }

/-- `channel_send` of `src/src/channels.c` (lines 79-141).  `allocOk` is
whether the `malloc(new_cap * item_size)` in the growth path succeeds. -/
def channel_send (allocOk : Bool) (ch : Channel α) (v : α) : SendResult α :=
  if ch.flags &&& CH_CLOSED ≠ 0 then
    SendResult.closed ch
  else if ch.flags &&& CH_BOUNDED ≠ 0 then
    -- while (count >= capacity && !(flags & CH_CLOSED)) wait(...);
    -- sequentially, a full open bounded channel blocks forever
    if ch.count ≥ ch.capacity then SendResult.blocked
    else SendResult.ok (enqueue ch v)
  else if ch.capacity ≤ ch.count then
    if allocOk = false then SendResult.allocFail ch
    else SendResult.ok (enqueue (grow ch) v)
  else
    SendResult.ok (enqueue ch v)

/-- Result of `channel_recv`: an item, failure because the channel is
closed and drained, or blocked forever on `recv_cond` (empty open
channel, sequential execution). -/
inductive RecvResult (α : Type) where
  | ok (v : α) (ch : Channel α)
  | closedEmpty (ch : Channel α)
  | blocked

/-- `channel_recv` of `src/src/channels.c` (lines 144-170). -/
def channel_recv (ch : Channel α) : RecvResult α :=
  if ch.count = 0 ∧ ch.flags &&& CH_CLOSED = 0 then
    -- while (count == 0 && !(flags & CH_CLOSED)) wait(...);
    RecvResult.blocked
  else if ch.count = 0 ∧ ch.flags &&& CH_CLOSED ≠ 0 then
    RecvResult.closedEmpty ch
  else
    RecvResult.ok (ch.queue ch.recv_ptr)
      { ch with
          count := ch.count - 1
          recv_ptr := (ch.recv_ptr + 1) % ch.capacity }

/-- `channel_close` of `src/src/channels.c` (lines 173-181):
`ch->flags |= CH_CLOSED` (the broadcasts touch no channel state). -/
def channel_close (ch : Channel α) : Channel α :=
  { ch with flags := ch.flags ||| CH_CLOSED }

/-- The flags transition of `channel_close` in `src/src/channels.c`
(line 177): `ch->flags |= CH_CLOSED`. -/
def channel_close_flags (flags : Nat) : Nat := flags ||| CH_CLOSED

/-- The flags transition of `channel_close` in the historical variant
`src/channels.c` (line 104): `ch->flags &= CH_CLOSED`. -/
def channel_close_flags_old (flags : Nat) : Nat := flags &&& CH_CLOSED

/-- The successor channel state of a `channel_send` result, when there is
one (a blocked call never returns). -/
def SendResult.post : SendResult α → Option (Channel α)
  | SendResult.ok ch => some ch
  | SendResult.closed ch => some ch
  | SendResult.allocFail ch => some ch
  | SendResult.blocked => none

/-- The successor channel state of a `channel_recv` result. -/
def RecvResult.post : RecvResult α → Option (Channel α)
  | RecvResult.ok _ ch => some ch
  | RecvResult.closedEmpty ch => some ch
  | RecvResult.blocked => none

/-- The data-model invariant (§3 of the design): `count ≤ capacity`, the
cursors lie in `[0, capacity)`, and the live window determines
`send_ptr = (recv_ptr + count) % capacity`. -/
def ChannelInv (ch : Channel α) : Prop :=
  0 < ch.capacity ∧ ch.count ≤ ch.capacity ∧ ch.recv_ptr < ch.capacity ∧
    ch.send_ptr < ch.capacity ∧ ch.send_ptr = (ch.recv_ptr + ch.count) % ch.capacity

instance (ch : Channel α) : Decidable (ChannelInv ch) := by
  unfold ChannelInv; infer_instance

/-- The live items of the channel, in logical FIFO order: the `count`
slots starting at `recv_ptr`, taken circularly. -/
def liveItems (ch : Channel α) : List α :=
  (List.range ch.count).map (fun i => ch.queue ((ch.recv_ptr + i) % ch.capacity))

/-- Iterated `channel_send`: send the values in order, `none` if any call
fails or blocks. -/
def sendList (allocOk : Bool) (ch : Channel α) : List α → Option (Channel α)
  | [] => some ch
  | v :: vs =>
    match channel_send allocOk ch v with
    | SendResult.ok ch' => sendList allocOk ch' vs
    | _ => none

/-- Iterated `channel_recv`: receive `n` items, `none` if any call fails
or blocks. -/
def recvN (ch : Channel α) : Nat → Option (List α × Channel α)
  | 0 => some ([], ch)
  | n + 1 =>
    match channel_recv ch with
    | RecvResult.ok v ch' => (recvN ch' n).map (fun p => (v :: p.1, p.2))
    | _ => none

/-- Invariant of the post-state of an operation, trivially true when the
operation blocks (and hence never returns). -/
def postInv : Option (Channel α) → Prop
  | none => True
  | some ch => ChannelInv ch

/-- States reachable from a freshly created unbounded channel
(`channel_create(item_size, 0)`) by any sequence of returning operations. -/
inductive ChannelReach (item_size : Nat) : Channel α → Prop where
  | created : ∀ ch : Channel α,
      channel_create true true item_size 0 = CreateResult.ok ch →
      ChannelReach item_size ch
  | send_step : ∀ (ch ch' : Channel α) (a : Bool) (v : α),
      ChannelReach item_size ch → (channel_send a ch v).post = some ch' →
      ChannelReach item_size ch'
  | recv_step : ∀ ch ch' : Channel α,
      ChannelReach item_size ch → (channel_recv ch).post = some ch' →
      ChannelReach item_size ch'
  | close_step : ∀ ch : Channel α,
      ChannelReach item_size ch → ChannelReach item_size (channel_close ch)

/-! ### Concrete channel states used as witnesses -/

/-- A freshly created unbounded channel for `int`-sized items. -/
def freshUnbounded : Channel Nat := Channel.mk 4 0 16 0 0 0 (fun _ => default)

/-- A full open unbounded channel: 16 items `0..15` in slots `0..15`. -/
def fullUnbounded : Channel Nat := Channel.mk 4 16 16 0 0 0 (fun i => i)

/-- A closed channel still holding two buffered items. -/
def closedTwo : Channel Nat := Channel.mk 4 2 16 0 2 1 (fun i => i)

/-- An open unbounded channel holding two buffered items. -/
def openTwo : Channel Nat := Channel.mk 4 2 16 0 2 0 (fun i => i)

/-- A closed, drained channel. -/
def closedEmptyCh : Channel Nat := Channel.mk 4 0 16 0 0 1 (fun _ => 0)

/-- The state of `freshUnbounded` after sending `3, 1, 4`. -/
def sentThree : Channel Nat := (sendList true freshUnbounded [3, 1, 4]).getD freshUnbounded

/-! ## Arithmetic helpers -/

theorem mod_small_cases (x cap : Nat) (h : x < 2 * cap) :
    x % cap = if x < cap then x else x - cap := by
  split
  · exact Nat.mod_eq_of_lt (by assumption)
  · rw [Nat.mod_eq_sub_mod (by omega), Nat.mod_eq_of_lt (by omega)]

theorem mod_shift_inj (cap r i j : Nat) (hi : i < cap) (hj : j < cap)
    (h : (r + i) % cap = (r + j) % cap) : i = j := by
  have h1 : (r % cap + i) % cap = (r % cap + j) % cap := by
    rwa [Nat.mod_add_mod, Nat.mod_add_mod]
  have hr : r % cap < cap := Nat.mod_lt _ (by omega)
  rw [mod_small_cases (r % cap + i) cap (by omega),
    mod_small_cases (r % cap + j) cap (by omega)] at h1
  split at h1 <;> split at h1 <;> omega

/-! ## Core lemmas about the operations -/

/-- The enqueue step: under the invariant with a free slot, it appends the
value to the live window and otherwise changes only `count` and
`send_ptr`. -/
theorem enqueue_spec (ch : Channel α) (v : α) (h : ChannelInv ch)
    (hc : ch.count < ch.capacity) :
    ChannelInv (enqueue ch v) ∧ liveItems (enqueue ch v) = liveItems ch ++ [v] ∧
      (enqueue ch v).count = ch.count + 1 ∧ (enqueue ch v).flags = ch.flags ∧
      (enqueue ch v).capacity = ch.capacity ∧ (enqueue ch v).recv_ptr = ch.recv_ptr := by
  obtain ⟨hcap, hle, hr, hs, heq⟩ := h
  have ecount : (enqueue ch v).count = ch.count + 1 := rfl
  have ecap : (enqueue ch v).capacity = ch.capacity := rfl
  have er : (enqueue ch v).recv_ptr = ch.recv_ptr := rfl
  have es : (enqueue ch v).send_ptr = (ch.send_ptr + 1) % ch.capacity := rfl
  have equeue : (enqueue ch v).queue = fun i => if i = ch.send_ptr then v else ch.queue i :=
    rfl
  refine ⟨⟨by rw [ecap]; exact hcap, by rw [ecount, ecap]; omega,
    by rw [er, ecap]; exact hr, ?_, ?_⟩, ?_, rfl, rfl, rfl, rfl⟩
  · rw [es, ecap]
    exact Nat.mod_lt _ hcap
  · rw [es, ecap, ecount, er, heq, Nat.mod_add_mod]
    exact congrArg (· % ch.capacity) (by omega)
  · unfold liveItems
    rw [ecount, ecap, er, equeue, List.range_succ, List.map_append, List.map_cons,
      List.map_nil]
    refine congr_arg₂ (· ++ ·) ?_ ?_
    · refine List.map_congr_left (fun i hm => ?_)
      have hi : i < ch.count := List.mem_range.mp hm
      have hne : (ch.recv_ptr + i) % ch.capacity ≠ ch.send_ptr := by
        intro hcon
        rw [heq] at hcon
        have := mod_shift_inj ch.capacity ch.recv_ptr i ch.count (by omega) hc hcon
        omega
      simp [hne]
    · rw [← heq]
      simp

/-- The growth step: under the invariant with `count = capacity` (the only
situation in which `channel_send` invokes it), it doubles the capacity,
relocates the live window unchanged to offset 0, and resets the cursors. -/
theorem grow_spec (ch : Channel α) (h : ChannelInv ch)
    (hfull : ch.count = ch.capacity) :
    ChannelInv (grow ch) ∧ liveItems (grow ch) = liveItems ch ∧
      (grow ch).count = ch.count ∧ (grow ch).capacity = ch.capacity * 2 ∧
      (grow ch).recv_ptr = 0 ∧ (grow ch).send_ptr = ch.count ∧
      (grow ch).flags = ch.flags := by
  obtain ⟨hcap, hle, hr, hs, heq⟩ := h
  have hsr : ch.send_ptr = ch.recv_ptr := by
    rw [heq, hfull, Nat.add_mod_right, Nat.mod_eq_of_lt hr]
  have hnlt : ¬ ch.recv_ptr < ch.send_ptr := by omega
  have gcount : (grow ch).count = ch.count := rfl
  have gcap : (grow ch).capacity = ch.capacity * 2 := rfl
  have gr : (grow ch).recv_ptr = 0 := rfl
  have gs : (grow ch).send_ptr = ch.count := rfl
  have gqueue : (grow ch).queue =
      if ch.recv_ptr < ch.send_ptr then
        fun i => if i < ch.count then ch.queue (ch.recv_ptr + i) else default
      else
        fun i =>
          if i < ch.capacity - ch.recv_ptr then ch.queue (ch.recv_ptr + i)
          else if i < ch.capacity - ch.recv_ptr + ch.send_ptr then
            ch.queue (i - (ch.capacity - ch.recv_ptr))
          else default := rfl
  refine ⟨⟨by rw [gcap]; omega, by rw [gcount, gcap]; omega, by rw [gr, gcap]; omega,
    by rw [gs, gcap]; omega, ?_⟩, ?_, gcount, gcap, gr, gs, rfl⟩
  · rw [gs, gr, gcount, gcap, Nat.zero_add, Nat.mod_eq_of_lt (by omega)]
  · unfold liveItems
    rw [gcount, gcap, gr, gqueue, if_neg hnlt]
    refine List.map_congr_left (fun i hm => ?_)
    have hi : i < ch.count := List.mem_range.mp hm
    have h2 : (0 + i) % (ch.capacity * 2) = i := by
      rw [Nat.zero_add, Nat.mod_eq_of_lt (by omega)]
    rw [h2]
    by_cases hlo : i < ch.capacity - ch.recv_ptr
    · have hmod : (ch.recv_ptr + i) % ch.capacity = ch.recv_ptr + i :=
        Nat.mod_eq_of_lt (by omega)
      simp [hlo, hmod]
    · have hhi : i < ch.capacity - ch.recv_ptr + ch.send_ptr := by omega
      have hmod : (ch.recv_ptr + i) % ch.capacity = ch.recv_ptr + i - ch.capacity := by
        rw [mod_small_cases (ch.recv_ptr + i) ch.capacity (by omega)]
        split <;> omega
      simp only [hlo, if_false, hhi, if_true]
      rw [hmod]
      congr 1
      omega

/-- A successful `channel_send` appends the value to the live window,
increments `count`, preserves the invariant and the flags. -/
theorem send_ok_spec (a : Bool) (ch ch' : Channel α) (v : α) (h : ChannelInv ch)
    (hs : channel_send a ch v = SendResult.ok ch') :
    ChannelInv ch' ∧ liveItems ch' = liveItems ch ++ [v] ∧
      ch'.count = ch.count + 1 ∧ ch'.flags = ch.flags := by
  unfold channel_send at hs
  split at hs
  · cases hs
  · split at hs
    · split at hs
      · cases hs
      · cases hs
        have hc : ch.count < ch.capacity := by omega
        obtain ⟨h1, h2, h3, h4, _⟩ := enqueue_spec ch v h hc
        exact ⟨h1, h2, h3, h4⟩
    · split at hs
      · split at hs
        · cases hs
        · cases hs
          have hfull : ch.count = ch.capacity := by
            obtain ⟨_, hle, _, _, _⟩ := h
            omega
          obtain ⟨g1, g2, g3, g4, _, _, g7⟩ := grow_spec ch h hfull
          have hc : (grow ch).count < (grow ch).capacity := by
            obtain ⟨hcap, _, _, _, _⟩ := h
            omega
          obtain ⟨e1, e2, e3, e4, _⟩ := enqueue_spec (grow ch) v g1 hc
          refine ⟨e1, by rw [e2, g2], by rw [e3, g3], by rw [e4, g7]⟩
      · cases hs
        have hc : ch.count < ch.capacity := by omega
        obtain ⟨h1, h2, h3, h4, _⟩ := enqueue_spec ch v h hc
        exact ⟨h1, h2, h3, h4⟩

/-- A `channel_recv` on a nonempty channel succeeds (whether or not the
channel is closed), returns the head of the live window, removes it,
preserves the invariant and the flags. -/
theorem recv_ok_spec (ch : Channel α) (h : ChannelInv ch) (hc : 0 < ch.count) :
    ∃ ch', channel_recv ch = RecvResult.ok ((liveItems ch).headD default) ch' ∧
      ChannelInv ch' ∧ liveItems ch' = (liveItems ch).tail ∧
      ch'.count = ch.count - 1 ∧ ch'.flags = ch.flags ∧
      ch'.capacity = ch.capacity := by
  obtain ⟨hcap, hle, hr, hs, heq⟩ := h
  obtain ⟨k, hk⟩ : ∃ k, ch.count = k + 1 := ⟨ch.count - 1, by omega⟩
  have h1 : ¬ (ch.count = 0 ∧ ch.flags &&& CH_CLOSED = 0) := by omega
  have h2 : ¬ (ch.count = 0 ∧ ch.flags &&& CH_CLOSED ≠ 0) := by omega
  have hhead : (liveItems ch).headD default = ch.queue ch.recv_ptr := by
    unfold liveItems
    rw [hk, List.range_succ_eq_map]
    simp [Nat.mod_eq_of_lt hr]
  refine ⟨{ ch with count := ch.count - 1, recv_ptr := (ch.recv_ptr + 1) % ch.capacity },
    ?_, ⟨hcap, show ch.count - 1 ≤ ch.capacity by omega, Nat.mod_lt _ hcap, hs, ?_⟩,
    ?_, rfl, rfl, rfl⟩
  · unfold channel_recv
    rw [if_neg h1, if_neg h2, hhead]
  · show ch.send_ptr = ((ch.recv_ptr + 1) % ch.capacity + (ch.count - 1)) % ch.capacity
    rw [Nat.mod_add_mod, heq]
    congr 1
    omega
  · show liveItems _ = (liveItems ch).tail
    unfold liveItems
    simp only [hk, Nat.add_sub_cancel]
    rw [List.range_succ_eq_map]
    simp only [List.map_cons, List.tail_cons, List.map_map]
    refine List.map_congr_left (fun i hm => ?_)
    simp only [Function.comp_apply, Nat.mod_add_mod]
    congr 2
    omega

/-- `liveItems` has exactly `count` elements. -/
theorem liveItems_length (ch : Channel α) : (liveItems ch).length = ch.count := by
  simp [liveItems]

/-- A `channel_send` reporting "closed" leaves the state untouched. -/
theorem send_closed_state (a : Bool) (ch ch1 : Channel α) (v : α)
    (hs : channel_send a ch v = SendResult.closed ch1) : ch1 = ch := by
  unfold channel_send at hs
  split at hs
  · injection hs with h
    exact h.symm
  · split at hs
    · split at hs <;> cases hs
    · split at hs
      · split at hs <;> cases hs
      · cases hs

/-- A `channel_send` reporting a growth allocation failure leaves the
state untouched. -/
theorem send_allocFail_state (a : Bool) (ch ch1 : Channel α) (v : α)
    (hs : channel_send a ch v = SendResult.allocFail ch1) : ch1 = ch := by
  unfold channel_send at hs
  split at hs
  · cases hs
  · split at hs
    · split at hs <;> cases hs
    · split at hs
      · split at hs
        · injection hs with h
          exact h.symm
        · cases hs
      · cases hs

/-- A `channel_recv` reporting "closed and drained" leaves the state
untouched. -/
theorem recv_closedEmpty_state (ch ch1 : Channel α)
    (hs : channel_recv ch = RecvResult.closedEmpty ch1) : ch1 = ch := by
  unfold channel_recv at hs
  split at hs
  · cases hs
  · split at hs
    · injection hs with h
      exact h.symm
    · cases hs

/-- A successful `channel_recv` happens only on a nonempty channel. -/
theorem recv_ok_count_pos (ch ch1 : Channel α) (v : α)
    (hs : channel_recv ch = RecvResult.ok v ch1) : 0 < ch.count := by
  unfold channel_recv at hs
  split at hs
  · cases hs
  · split at hs
    · cases hs
    · omega

/-- C1: on a full open unbounded channel, `channel_send` grows the
storage: capacity doubles, the live window is relocated (unchanged, in
FIFO order) to offset 0, `recv_ptr` becomes 0 and `send_ptr` becomes
`count`; the send then enqueues into the grown channel. -/
theorem unbounded_send_grow (ch : Channel α) (v : α) (h : ChannelInv ch)
    (hopen : ch.flags &&& CH_CLOSED = 0) (hub : ch.flags &&& CH_BOUNDED = 0)
    (hfull : ch.count = ch.capacity) :
    (grow ch).capacity = 2 * ch.capacity ∧ (grow ch).recv_ptr = 0 ∧
      (grow ch).send_ptr = ch.count ∧ liveItems (grow ch) = liveItems ch ∧
      channel_send true ch v = SendResult.ok (enqueue (grow ch) v) := by
  obtain ⟨_, hlive, _, hcap, hr, hsp, _⟩ := grow_spec ch h hfull
  refine ⟨by rw [hcap]; ring, hr, hsp, hlive, ?_⟩
  unfold channel_send
  rw [if_neg (fun hcon => hcon hopen), if_neg (fun hcon => hcon hub),
    if_pos (le_of_eq hfull.symm)]
  rfl

/-- C1 witness. -/
theorem unbounded_send_grow_witness :
    (grow fullUnbounded).capacity = 2 * fullUnbounded.capacity ∧
      (grow fullUnbounded).recv_ptr = 0 ∧
      (grow fullUnbounded).send_ptr = fullUnbounded.count ∧
      liveItems (grow fullUnbounded) = liveItems fullUnbounded ∧
      channel_send true fullUnbounded 99 =
        SendResult.ok (enqueue (grow fullUnbounded) 99) :=
  unbounded_send_grow fullUnbounded 99 (by decide) (by decide) (by decide) (by decide)

/-- C3: once the closed flag is set, `channel_send` fails and returns the
channel state completely unchanged — it never enqueues. -/
theorem send_on_closed_fails (ch : Channel α) (a : Bool) (v : α)
    (h : ch.flags &&& CH_CLOSED ≠ 0) :
    channel_send a ch v = SendResult.closed ch := by
  unfold channel_send
  rw [if_pos h]

/-- C3 witness. -/
theorem send_on_closed_fails_witness :
    channel_send true closedTwo 7 = SendResult.closed closedTwo :=
  send_on_closed_fails closedTwo true 7 (by decide)

/-- C6: when the growth allocation fails in an unbounded `channel_send`,
the call reports failure and returns the channel state exactly as it was
(old buffer, count, cursors, capacity and flags unchanged). -/
theorem send_growth_alloc_failure (ch : Channel α) (v : α)
    (hopen : ch.flags &&& CH_CLOSED = 0) (hub : ch.flags &&& CH_BOUNDED = 0)
    (hfull : ch.capacity ≤ ch.count) :
    channel_send false ch v = SendResult.allocFail ch := by
  unfold channel_send
  rw [if_neg (fun hcon => hcon hopen), if_neg (fun hcon => hcon hub), if_pos hfull,
    if_pos rfl]

/-- C6 witness. -/
theorem send_growth_alloc_failure_witness :
    channel_send false fullUnbounded 5 = SendResult.allocFail fullUnbounded :=
  send_growth_alloc_failure fullUnbounded 5 (by decide) (by decide) (by decide)

/-- C5: every operation preserves the data-model invariant
(`count ≤ capacity`, cursors in `[0, capacity)`, and
`send_ptr = (recv_ptr + count) % capacity`, which says the `count` live
items occupy exactly the slots `[recv_ptr, recv_ptr + count) mod
capacity`). -/
theorem ops_preserve_invariant (ch : Channel α) (a : Bool) (v : α)
    (h : ChannelInv ch) :
    postInv (channel_send a ch v).post ∧ postInv (channel_recv ch).post ∧
      ChannelInv (channel_close ch) := by
  refine ⟨?_, ?_, ?_⟩
  · cases hres : channel_send a ch v with
    | ok ch1 =>
      exact (send_ok_spec a ch ch1 v h hres).1
    | closed ch1 =>
      rw [send_closed_state a ch ch1 v hres]
      exact h
    | allocFail ch1 =>
      rw [send_allocFail_state a ch ch1 v hres]
      exact h
    | blocked =>
      exact trivial
  · cases hres : channel_recv ch with
    | ok v1 ch1 =>
      have hpos : 0 < ch.count := recv_ok_count_pos ch ch1 v1 hres
      obtain ⟨ch', hrecv, hinv, _⟩ := recv_ok_spec ch h hpos
      rw [hres] at hrecv
      injection hrecv with _ h2
      rw [← h2] at hinv
      exact hinv
    | closedEmpty ch1 =>
      rw [recv_closedEmpty_state ch ch1 hres]
      exact h
    | blocked =>
      exact trivial
  · obtain ⟨hcap, hle, hr, hs, heq⟩ := h
    exact ⟨hcap, hle, hr, hs, heq⟩

/-- C5 witness. -/
theorem ops_preserve_invariant_witness :
    postInv (channel_send true openTwo 9).post ∧ postInv (channel_recv openTwo).post ∧
      ChannelInv (channel_close openTwo) :=
  ops_preserve_invariant openTwo true 9 (by decide)

/-- Draining `n ≤ count` items succeeds and yields the first `n` live
items, leaving the rest; flags are untouched. -/
theorem recvN_drain (n : Nat) : ∀ ch : Channel α, ChannelInv ch → n ≤ ch.count →
    ∃ ch', recvN ch n = some ((liveItems ch).take n, ch') ∧ ChannelInv ch' ∧
      ch'.count = ch.count - n ∧ ch'.flags = ch.flags ∧
      liveItems ch' = (liveItems ch).drop n := by
  induction n with
  | zero =>
    intro ch h _
    exact ⟨ch, by simp [recvN], h, by omega, rfl, by simp⟩
  | succ k ih =>
    intro ch h hn
    have hpos : 0 < ch.count := by omega
    obtain ⟨ch1, hrecv, h1, hlive1, hcount1, hflags1, _⟩ := recv_ok_spec ch h hpos
    obtain ⟨ch', hrec, hinv, hc, hf, hl⟩ := ih ch1 h1 (by omega)
    obtain ⟨x, t, hat⟩ : ∃ x t, liveItems ch = x :: t := by
      have hlen : (liveItems ch).length = ch.count := liveItems_length ch
      cases hcase : liveItems ch with
      | nil => rw [hcase] at hlen; simp at hlen; omega
      | cons x t => exact ⟨x, t, rfl⟩
    refine ⟨ch', ?_, hinv, by omega, by rw [hf, hflags1], ?_⟩
    · rw [recvN, hrecv]
      simp only [Option.map_eq_map]
      rw [hrec, hlive1, hat]
      simp [List.take_succ_cons]
    · rw [hl, hlive1, hat]
      simp [List.drop_succ_cons]

/-- C2: a closed channel holding `count` buffered items yields exactly
those items, in FIFO order, over the next `count` receives; the receive
after that fails with the explicit closed-and-drained result, returning
the state unchanged — hence every subsequent receive fails the same
way. -/
theorem close_then_drain (ch : Channel α) (h : ChannelInv ch)
    (hclosed : ch.flags &&& CH_CLOSED ≠ 0) :
    ∃ ch', recvN ch ch.count = some (liveItems ch, ch') ∧
      channel_recv ch' = RecvResult.closedEmpty ch' := by
  obtain ⟨ch', hrec, hinv, hc, hf, _⟩ := recvN_drain ch.count ch h le_rfl
  have htake : (liveItems ch).take ch.count = liveItems ch := by
    rw [← liveItems_length ch]
    exact List.take_length _
  rw [htake] at hrec
  refine ⟨ch', hrec, ?_⟩
  unfold channel_recv
  rw [if_neg (fun hcon => hclosed (hf ▸ hcon.2)), if_pos ⟨by omega, hf ▸ hclosed⟩]

/-- C2 witness. -/
theorem close_then_drain_witness :
    ∃ ch', recvN closedTwo closedTwo.count = some (liveItems closedTwo, ch') ∧
      channel_recv ch' = RecvResult.closedEmpty ch' :=
  close_then_drain closedTwo (by decide) (by decide)

/-- A fully successful `sendList` appends the sent values to the live
window in order, preserving the invariant and the flags. -/
theorem sendList_spec (vs : List α) : ∀ (a : Bool) (ch ch' : Channel α), ChannelInv ch →
    sendList a ch vs = some ch' →
    ChannelInv ch' ∧ liveItems ch' = liveItems ch ++ vs ∧
      ch'.count = ch.count + vs.length ∧ ch'.flags = ch.flags := by
  induction vs with
  | nil =>
    intro a ch ch' h hs
    injection hs with h2
    rw [← h2]
    exact ⟨h, by simp, by simp, rfl⟩
  | cons v vs ih =>
    intro a ch ch' h hs
    rw [sendList] at hs
    cases hres : channel_send a ch v with
    | ok ch1 =>
      rw [hres] at hs
      obtain ⟨h1, hl1, hc1, hf1⟩ := send_ok_spec a ch ch1 v h hres
      obtain ⟨h2, hl2, hc2, hf2⟩ := ih a ch1 ch' h1 hs
      refine ⟨h2, ?_, ?_, by rw [hf2, hf1]⟩
      · rw [hl2, hl1]
        simp
      · rw [hc2, hc1]
        simp only [List.length_cons]
        omega
    | closed ch1 => rw [hres] at hs; cases hs
    | allocFail ch1 => rw [hres] at hs; cases hs
    | blocked => rw [hres] at hs; cases hs

/-- C4: values sent by a single producer into an (initially empty)
channel are received in exactly the order they were sent — FIFO,
including across wraparound of the circular buffer and unbounded
growth. -/
theorem fifo_single_producer (a : Bool) (ch ch' : Channel α) (vs : List α)
    (h : ChannelInv ch) (hempty : ch.count = 0)
    (hsend : sendList a ch vs = some ch') :
    ∃ ch'', recvN ch' vs.length = some (vs, ch'') := by
  obtain ⟨hinv, hlive, hcount, _⟩ := sendList_spec vs a ch ch' h hsend
  have hnil : liveItems ch = [] := by
    have hlen := liveItems_length ch
    rw [hempty] at hlen
    exact List.eq_nil_of_length_eq_zero hlen
  rw [hnil, List.nil_append] at hlive
  obtain ⟨ch'', hrec, _⟩ := recvN_drain vs.length ch' hinv (by omega)
  rw [hlive, List.take_length] at hrec
  exact ⟨ch'', hrec⟩

/-- C4 witness. -/
theorem fifo_single_producer_witness :
    ∃ ch'', recvN sentThree ([3, 1, 4] : List Nat).length = some ([3, 1, 4], ch'') :=
  fifo_single_producer true freshUnbounded sentThree [3, 1, 4] (by decide) (by decide) rfl

set_option maxRecDepth 8192 in
/-- Bit facts about setting the closed flag, for every `uint8_t` flags
value. -/
theorem closed_flag_facts : ∀ f : Nat, f < 256 →
    (f ||| CH_CLOSED) &&& CH_CLOSED ≠ 0 ∧
      (f ||| CH_CLOSED) &&& CH_BOUNDED = f &&& CH_BOUNDED ∧
      (f ||| CH_CLOSED) ||| CH_CLOSED = f ||| CH_CLOSED := by
  decide

/-- C7: `channel_close` sets the closed flag, preserves the bounded/mode
bit and every other field (count, cursors, capacity, item size, buffer),
and is idempotent. -/
theorem close_pure_flag_flip (ch : Channel α) (h : ch.flags < 256) :
    (channel_close ch).flags &&& CH_CLOSED ≠ 0 ∧
      (channel_close ch).flags &&& CH_BOUNDED = ch.flags &&& CH_BOUNDED ∧
      (channel_close ch).count = ch.count ∧
      (channel_close ch).capacity = ch.capacity ∧
      (channel_close ch).recv_ptr = ch.recv_ptr ∧
      (channel_close ch).send_ptr = ch.send_ptr ∧
      (channel_close ch).item_size = ch.item_size ∧
      (channel_close ch).queue = ch.queue ∧
      channel_close (channel_close ch) = channel_close ch := by
  obtain ⟨h1, h2, h3⟩ := closed_flag_facts ch.flags h
  refine ⟨h1, h2, rfl, rfl, rfl, rfl, rfl, rfl, ?_⟩
  show ({ ch with flags := (ch.flags ||| CH_CLOSED) ||| CH_CLOSED } : Channel α) =
    { ch with flags := ch.flags ||| CH_CLOSED }
  rw [h3]

/-- C7 witness. -/
theorem close_pure_flag_flip_witness :
    (channel_close openTwo).flags &&& CH_CLOSED ≠ 0 ∧
      (channel_close openTwo).flags &&& CH_BOUNDED = openTwo.flags &&& CH_BOUNDED ∧
      (channel_close openTwo).count = openTwo.count ∧
      (channel_close openTwo).capacity = openTwo.capacity ∧
      (channel_close openTwo).recv_ptr = openTwo.recv_ptr ∧
      (channel_close openTwo).send_ptr = openTwo.send_ptr ∧
      (channel_close openTwo).item_size = openTwo.item_size ∧
      (channel_close openTwo).queue = openTwo.queue ∧
      channel_close (channel_close openTwo) = channel_close openTwo :=
  close_pure_flag_flip openTwo (by decide)

/-- C8 counterexample: when the allocation of the channel struct itself
fails, `channel_create` does not return NULL — it dereferences the
unchecked `malloc` result (undefined behaviour), contradicting the claim
that any allocation failure yields a clean NULL return. -/
theorem create_struct_alloc_failure_ub :
    (channel_create false true 4 0 : CreateResult Nat) = CreateResult.nullDeref ∧
      (CreateResult.nullDeref : CreateResult Nat) ≠ CreateResult.nullHandle :=
  ⟨rfl, fun hcon => CreateResult.noConfusion hcon⟩

/-- C8 amended: if allocation of the storage buffer fails (the struct
allocation having succeeded), `channel_create` frees the struct and
returns NULL without undefined access; on success it returns a valid
handle.  Failure of the struct allocation itself is unchecked. -/
theorem create_buffer_alloc_failure (item_size capacity : Nat) :
    (channel_create true false item_size capacity : CreateResult α) =
        CreateResult.nullHandle ∧
      ∃ ch : Channel α, (channel_create true true item_size capacity :
        CreateResult α) = CreateResult.ok ch :=
  ⟨rfl, ⟨_, rfl⟩⟩

/-- C9 counterexample: on an open bounded channel (`flags = CH_BOUNDED`),
the historical `channel_close` of `src/channels.c` computes flags `0`
(neither closing the channel nor keeping the bounded bit), while the
`channel_close` of `src/src/channels.c` computes `3`; the two
implementations do not compute the same transition. -/
theorem close_flags_variants_differ :
    channel_close_flags_old 2 = 0 ∧ channel_close_flags 2 = 3 ∧
      channel_close_flags_old 2 ≠ channel_close_flags 2 := by
  decide

set_option maxRecDepth 8192 in
/-- C9 amended: the two implementations differ.  The current one
(`src/src/channels.c`) sets the closed bit additively and preserves the
bounded bit; the historical one (`src/channels.c`) masks the flags with
the closed bit, so for `uint8_t` flags the two transitions agree only
when the prior flags value is exactly `CH_CLOSED`. -/
theorem close_flags_variants_amended : ∀ flags : Nat, flags < 256 →
    channel_close_flags flags &&& CH_BOUNDED = flags &&& CH_BOUNDED ∧
      channel_close_flags flags &&& CH_CLOSED ≠ 0 ∧
      (channel_close_flags_old flags = channel_close_flags flags ↔
        flags = CH_CLOSED) := by
  decide

/-- C9 witness. -/
theorem close_flags_variants_amended_witness :
    channel_close_flags 2 &&& CH_BOUNDED = 2 &&& CH_BOUNDED ∧
      channel_close_flags 2 &&& CH_CLOSED ≠ 0 ∧
      (channel_close_flags_old 2 = channel_close_flags 2 ↔ 2 = CH_CLOSED) :=
  close_flags_variants_amended 2 (by decide)

/-- The post-state of any returning `channel_send` has capacity either
unchanged or doubled. -/
theorem send_post_capacity (a : Bool) (ch ch' : Channel α) (v : α)
    (h : (channel_send a ch v).post = some ch') :
    ch'.capacity = ch.capacity ∨ ch'.capacity = ch.capacity * 2 := by
  unfold channel_send at h
  split at h
  · simp only [SendResult.post] at h
    injection h with h2
    rw [← h2]
    exact Or.inl rfl
  · split at h
    · split at h
      · simp [SendResult.post] at h
      · simp only [SendResult.post] at h
        injection h with h2
        rw [← h2]
        exact Or.inl rfl
    · split at h
      · split at h
        · simp only [SendResult.post] at h
          injection h with h2
          rw [← h2]
          exact Or.inl rfl
        · simp only [SendResult.post] at h
          injection h with h2
          rw [← h2]
          exact Or.inr rfl
      · simp only [SendResult.post] at h
        injection h with h2
        rw [← h2]
        exact Or.inl rfl

/-- The post-state of any returning `channel_recv` has its capacity
unchanged. -/
theorem recv_post_capacity (ch ch' : Channel α)
    (h : (channel_recv ch).post = some ch') : ch'.capacity = ch.capacity := by
  unfold channel_recv at h
  split at h
  · simp [RecvResult.post] at h
  · split at h <;>
    · simp only [RecvResult.post] at h
      injection h with h2
      rw [← h2]

/-- C10: a channel created with capacity 0 starts with internal capacity
16, and every state reachable from it has capacity `16 * 2 ^ k` for some
`k`. -/
theorem unbounded_capacity_16_pow2 (item_size : Nat) :
    (∀ ch : Channel α, channel_create true true item_size 0 = CreateResult.ok ch →
      ch.capacity = 16) ∧
    (∀ ch : Channel α, ChannelReach item_size ch →
      ∃ k : Nat, ch.capacity = 16 * 2 ^ k) := by
  constructor
  · intro ch hcr
    injection (show CreateResult.ok
        (Channel.mk item_size 0 16 0 0 0 (fun _ => default)) =
        CreateResult.ok ch from hcr) with h2
    rw [← h2]
  · intro ch hreach
    induction hreach with
    | created ch0 hcr =>
      refine ⟨0, ?_⟩
      injection (show CreateResult.ok
          (Channel.mk item_size 0 16 0 0 0 (fun _ => default)) =
          CreateResult.ok ch0 from hcr) with h2
      rw [← h2]
      rfl
    | send_step ch0 ch1 a v hr hpost ih =>
      obtain ⟨k, hk⟩ := ih
      rcases send_post_capacity a ch0 ch1 v hpost with hcap | hcap
      · exact ⟨k, by rw [hcap, hk]⟩
      · refine ⟨k + 1, ?_⟩
        rw [hcap, hk, pow_succ]
        ring
    | recv_step ch0 ch1 hr hpost ih =>
      obtain ⟨k, hk⟩ := ih
      exact ⟨k, by rw [recv_post_capacity ch0 ch1 hpost, hk]⟩
    | close_step ch0 hr ih =>
      obtain ⟨k, hk⟩ := ih
      exact ⟨k, by rw [show (channel_close ch0).capacity = ch0.capacity from rfl, hk]⟩

/-- C10 witness. -/
theorem unbounded_capacity_16_pow2_witness :
    freshUnbounded.capacity = 16 ∧ ∃ k : Nat, freshUnbounded.capacity = 16 * 2 ^ k :=
  ⟨(unbounded_capacity_16_pow2 (α := Nat) 4).1 freshUnbounded rfl,
    (unbounded_capacity_16_pow2 (α := Nat) 4).2 freshUnbounded
      (ChannelReach.created freshUnbounded rfl)⟩

